import Mathlib

/-!
Verification development for the Turtle Adventure game
(`turtle_adventure.py`).  The Python source is shallowly embedded:

* positions and speeds that the source manipulates through `turtle` /
  `math` trigonometry are modelled over `ℝ`; the idiom
  `deg = atan2 dy dx; x += cos deg * s; y += sin deg * s`
  is embedded as moving `s` along the unit vector `(dx, dy) / dist`
  (with `atan2 0 0 = 0`, i.e. direction `(1, 0)`, in the degenerate case);
* the purely arithmetic entities (`RandomWalkEnemy` speeds, `Home`,
  `hits_player`) are modelled over `ℚ`, and `FencingEnemy` (integer home,
  integer patrol radius, integer speed 3) over `ℤ`;
* the `EnemyGenerator` schedule is modelled as the list of
  `__spawn_enemy` chain starts it performs, each chain contributing
  `spawn_quota` enemies;
* the game-over / delayed-callback machinery lives in `gamelib`
  (not part of this repository's sources), and is modelled from the spec
  where needed.
-/

namespace TurtleAdventure

/-- A point in the plane (`self.x`, `self.y` of a game element). -/
structure Pt where
  x : ℝ
  y : ℝ

/-- Euclidean distance, `math.sqrt (dx ** 2 + dy ** 2)` in the source. -/
noncomputable def dist (p q : Pt) : ℝ :=
  Real.sqrt ((q.x - p.x) ^ 2 + (q.y - p.y) ^ 2)

/-- The unit direction used by the source pattern
`deg = math.atan2 (qy - py) (qx - px)` followed by
`cos deg`, `sin deg`: for `q ≠ p` this is `(q - p) / dist p q`, and for
`q = p` Python's `atan2 0 0 = 0` gives the direction `(1, 0)`. -/
noncomputable def dirTo (p q : Pt) : Pt :=
  if q.x - p.x = 0 ∧ q.y - p.y = 0 then ⟨1, 0⟩
  else ⟨(q.x - p.x) / dist p q, (q.y - p.y) / dist p q⟩

/-- Move `s` along the heading from `p` toward `q`
(`setheading (towards q); forward s`, and likewise the
`cos`/`sin` movement steps of the enemies). -/
noncomputable def advance (p q : Pt) (s : ℝ) : Pt :=
  ⟨p.x + s * (dirTo p q).x, p.y + s * (dirTo p q).y⟩

/-- `Enemy.hits_player` (source lines 250-258): the player's position is
strictly inside the open box of side `esize` centred at `(ex, ey)`. -/
def hitsPlayer {α : Type} [LinearOrderedField α] (ex ey esize px py : α) : Prop :=
  (ex - esize / 2 < px ∧ px < ex + esize / 2) ∧
  (ey - esize / 2 < py ∧ py < ey + esize / 2)

instance {α : Type} [LinearOrderedField α] [DecidableEq α]
    [∀ a b : α, Decidable (a < b)] (ex ey esize px py : α) :
    Decidable (hitsPlayer ex ey esize px py) := by
  unfold hitsPlayer; infer_instance

/-- `Home.contains` (source lines 127-133): inclusive axis-aligned test. -/
def homeContains {α : Type} [LinearOrderedField α] (hx hy hsize px py : α) : Prop :=
  (hx - hsize / 2 ≤ px ∧ px ≤ hx + hsize / 2) ∧
  (hy - hsize / 2 ≤ py ∧ py ≤ hy + hsize / 2)

/-! ### Home (source lines 86-133) -/

/-- The `Home` data: position `(x, y)` set in `__init__` from `pos`,
and the private `__size` behind the `size` property. -/
structure HomeT where
  x : ℚ
  y : ℚ
  size : ℚ
deriving DecidableEq

/-- The public `size` setter of `Home` (source lines 106-108):
`self.__size = val`. -/
def homeSizeSet (h : HomeT) (v : ℚ) : HomeT :=
  { h with size := v }

/-- `Home.update` (source lines 116-118) is `pass`. -/
def homeUpdate (h : HomeT) : HomeT :=
  h

/-! ### Game-over and the spawn callback (claim C1)

`Game.stop` and `Game.after` live in `gamelib`, which is not among this
repository's sources; they are modelled from the spec. -/

/-- Modelled from the spec: the controller state of the missing `gamelib`
`Game` class.  Per the spec, `stop()` sets a stopped flag that halts the
per-frame tick loop permanently; the delayed-callback service still fires
a pending callback unless the callback itself checks the flag or is
unregistered.  `enemies` counts the entities registered through
`add_element`. -/
structure GameCtl where
  stopped : Bool
  enemies : ℕ
deriving DecidableEq

/-- Modelled from the spec: `Game.stop` (missing `gamelib`) sets the
stopped flag; it does not unregister pending delayed callbacks. -/
def stopGame (g : GameCtl) : GameCtl :=
  { g with stopped := true }

/-- `TurtleAdventureGame.game_over_win` (source lines 620-630): calls
`stop()` and draws the end-of-game text (rendering not modelled). -/
def gameOverWin (g : GameCtl) : GameCtl :=
  stopGame g

/-- `TurtleAdventureGame.game_over_lose` (source lines 632-642): calls
`stop()` and draws the end-of-game text (rendering not modelled). -/
def gameOverLose (g : GameCtl) : GameCtl :=
  stopGame g

/-- The effect of one firing of the `EnemyGenerator.__spawn_enemy`
callback (source lines 561-574) on the controller: the body tests only
`spawn_quota > 0`; if so it creates an enemy, registers it via
`add_element`, and re-arms the timer with `spawn_quota - 1` (returned
here as `some (quota - 1)`).  The body never consults the stopped
flag. -/
def spawnEnemyFire (g : GameCtl) (quota : ℕ) : GameCtl × Option ℕ :=
  if 0 < quota then ({ g with enemies := g.enemies + 1 }, some (quota - 1))
  else (g, none)

/-! ### EnemyGenerator schedule (claims C2, C7) -/

/-- The four concrete enemy kinds of `enemies_type`
(source lines 543-544), in list order. -/
inductive EnemyKind
  | randomWalk
  | chasing
  | fencing
  | charger
deriving DecidableEq

/-- `enemies_type` spawn quota column `i[4]` (source lines 543-544). -/
def baseQuota : EnemyKind → ℕ
  | .randomWalk => 5
  | .chasing => 2
  | .fencing => 2
  | .charger => 1

/-- `enemies_type` spawn delay column `i[3]` (source lines 543-544). -/
def baseDelay : EnemyKind → ℕ
  | .randomWalk => 10000
  | .chasing => 20000
  | .fencing => 15000
  | .charger => 25000

/-- The `low_lvl` dictionary (source line 548). -/
def lowQuota : EnemyKind → ℕ
  | .randomWalk => 5
  | .chasing => 2
  | .fencing => 4
  | .charger => 1

/-- The `high_lvl` dictionary (source lines 554-556):
`3 + extra` / `4 + extra` chain starts per kind, `extra = level // 20`. -/
def highCount (k : EnemyKind) (level : ℕ) : ℕ :=
  (match k with
    | .randomWalk => 3
    | .chasing => 4
    | .fencing => 3
    | .charger => 3) + level / 20

/-- The kind at index `i` of `enemies_type` (source lines 543-544). -/
def kindAt : ℕ → EnemyKind
  | 0 => .randomWalk
  | 1 => .chasing
  | 2 => .fencing
  | _ => .charger

/-- `enemies_type` order, for iteration in `create_enemy`. -/
def allKinds : List EnemyKind :=
  [.randomWalk, .chasing, .fencing, .charger]

/-- The list of `__spawn_enemy` chain starts performed by
`EnemyGenerator.create_enemy` (source lines 541-559), as
`(kind, delay, spawn_quota)` triples.  For `level < 4` the first `level`
kinds each start one chain with delay `100` and the `low_lvl` quota; for
`level ≥ 4` each kind starts `high_lvl` many chains with delay
`i[3] // (1 + level // 10)` and quota `i[4]`. -/
def spawnCalls (level : ℕ) : List (EnemyKind × ℕ × ℕ) :=
  if level < 4 then
    (List.range level).map (fun i => (kindAt i, 100, lowQuota (kindAt i)))
  else
    allKinds.flatMap (fun k =>
      List.replicate (highCount k level)
        (k, baseDelay k / (1 + level / 10), baseQuota k))

/-- The number of enemies created by one self-re-arming
`__spawn_enemy` chain started with the given quota (source lines
561-574): a firing with `spawn_quota > 0` creates one enemy and re-arms
with `spawn_quota - 1`; a firing with quota `0` does nothing. -/
def chainSpawnCount : ℕ → ℕ
  | 0 => 0
  | q + 1 => 1 + chainSpawnCount q

/-- The total number of enemies of kind `k` eventually spawned for a
game at the given level (all scheduled callbacks having fired). -/
def totalSpawned (k : EnemyKind) (level : ℕ) : ℕ :=
  (((spawnCalls level).filter (fun c => c.1 = k)).map
    (fun c => chainSpawnCount c.2.2)).sum

/-! ### Player (source lines 136-206, claim C4) -/

/-- The outcome of one `Player.update` call (source lines 172-182):
the player's position after the call, the waypoint's activity flag after
the call, and whether `game_over_win` was signalled during the call. -/
structure PlayerRes where
  pos : Pt
  wpActive : Bool
  win : Prop

/-- `Player.update` (source lines 172-182).  The home test comes first
and signals the win; the body then proceeds (there is no `return` and no
`else`): if the waypoint is active the turtle heads toward it and moves
`speed` forward, and the waypoint is deactivated when the post-move
distance to it drops below `speed`. -/
noncomputable def playerUpdate (hx hy hsize : ℝ) (wp : Pt) (wpActive : Bool)
    (p : Pt) (speed : ℝ) : PlayerRes :=
  let win := homeContains hx hy hsize p.x p.y
  if wpActive then
    let p' := advance p wp speed
    { pos := p',
      wpActive := if dist p' wp < speed then false else true,
      win := win }
  else
    { pos := p, wpActive := wpActive, win := win }

/-! ### DemoEnemy (source lines 260-281) -/

/-- The state of a `DemoEnemy`: position plus the constructor arguments
`size` and `color` held by the `Enemy` base class. -/
structure DemoState where
  x : ℚ
  y : ℚ
  size : ℚ
  color : String
deriving DecidableEq

/-- `DemoEnemy.update` (source lines 274-275) is `pass`: no movement,
no `hits_player` check, no lose signal. -/
def demoUpdate (s : DemoState) : DemoState × Prop :=
  (s, False)

/-! ### RandomWalkEnemy (source lines 284-335) -/

/-- The state of a `RandomWalkEnemy`: position, the two speed
components, and the `Enemy` base data.  (`__acc = 0.2` and
`__max_speed = 2` are per-instance constants.) -/
structure RWState where
  x : ℚ
  y : ℚ
  speedX : ℚ
  speedY : ℚ
  size : ℚ
  color : String
deriving DecidableEq

/-- `RandomWalkEnemy.update` (source lines 302-325).  The two random
`random.choice [-0.2, 0.2]` draws are passed in as the booleans
`accXPos`, `accYPos` (true for `+0.2`).  Speeds are clamped against the
upper bound `2` only; the sign of a speed component is reflected when
the corresponding pre-move coordinate is `< 0` or `> screen_height`
(the source compares both axes against `screen_height`).  The returned
proposition is the `hits_player` lose signal, checked at the post-move
position. -/
def rwUpdate (screenH px py : ℚ) (accXPos accYPos : Bool) (s : RWState) :
    RWState × Prop :=
  let sx0 := s.speedX + (if accXPos then (0.2 : ℚ) else -0.2)
  let sx1 := if 2 < sx0 then 2 else sx0
  let sy0 := s.speedY + (if accYPos then (0.2 : ℚ) else -0.2)
  let sy1 := if 2 < sy0 then 2 else sy0
  let sx2 := if s.x < 0 then |sx1| else if screenH < s.x then -|sx1| else sx1
  let x' := s.x + sx2
  let sy2 := if s.y < 0 then |sy1| else if screenH < s.y then -|sy1| else sy1
  let y' := s.y + sy2
  ({ s with x := x', y := y', speedX := sx2, speedY := sy2 },
    hitsPlayer x' y' s.size px py)

/-! ### ChasingEnemy (source lines 338-368) -/

/-- The state of a `ChasingEnemy` (`__speed = 2.75` is a per-instance
constant). -/
structure ChaseState where
  pos : Pt
  size : ℝ
  color : String

/-- `ChasingEnemy.update` (source lines 351-358): move `2.75` along the
`atan2` heading toward the player, then the `hits_player` check. -/
noncomputable def chasingUpdate (player : Pt) (s : ChaseState) :
    ChaseState × Prop :=
  let pos' := advance s.pos player 2.75
  ({ s with pos := pos' },
    hitsPlayer pos'.x pos'.y s.size player.x player.y)

/-! ### FencingEnemy (source lines 371-426, claim C6) -/

/-- The four `FencingEnemy` movement states, in the source's cycle
order. -/
inductive FDir
  | up
  | left
  | down
  | right
deriving DecidableEq

/-- The cyclic successor: `__move_up → __move_left → __move_down →
__move_right → __move_up`. -/
def fnext : FDir → FDir
  | .up => .left
  | .left => .down
  | .down => .right
  | .right => .up

/-- The state of a `FencingEnemy`: integer position (home position and
patrol radius are integers and the speed is `3`), current movement
state, and the `Enemy` base data. -/
structure FenceState where
  x : ℤ
  y : ℤ
  dir : FDir
  size : ℚ
  color : String
deriving DecidableEq

/-- One movement step of `FencingEnemy` (source lines 389-410), for a
home at `(hx, hy)` and patrol radius `rad` (`__path_rad`):
each state moves `3` along its axis and hands over to the next state
once the coordinate crosses `home ± rad`. -/
def fenceStep (hx hy rad : ℤ) (s : FenceState) : FenceState :=
  match s.dir with
  | .up =>
      let y' := s.y - 3
      if y' < hy - rad then { s with y := y', dir := .left }
      else { s with y := y' }
  | .left =>
      let x' := s.x - 3
      if x' < hx - rad then { s with x := x', dir := .down }
      else { s with x := x' }
  | .down =>
      let y' := s.y + 3
      if hy + rad < y' then { s with y := y', dir := .right }
      else { s with y := y' }
  | .right =>
      let x' := s.x + 3
      if hx + rad < x' then { s with x := x', dir := .up }
      else { s with x := x' }

/-- `FencingEnemy.update` (source lines 409-412): run the current state,
then the `hits_player` check at the new position. -/
def fenceUpdate (hx hy rad : ℤ) (px py : ℚ) (s : FenceState) :
    FenceState × Prop :=
  let s' := fenceStep hx hy rad s
  (s', hitsPlayer (s'.x : ℚ) (s'.y : ℚ) s'.size px py)

/-- `FencingEnemy.spawn_location` (source lines 421-423) together with
the constructor: the enemy starts at `home + (rad, rad)` in state
`__move_up`. -/
def fenceSpawn (hx hy rad : ℤ) (size : ℚ) (color : String) : FenceState :=
  ⟨hx + rad, hy + rad, .up, size, color⟩

/-! ### ChargerEnemy (source lines 429-512, claims C5, C10) -/

/-- The four phases of `ChargerEnemy` (the source stores the bound
method `__hunt` / `__charge` / `__strike` / `__break` in
`self.__state`). -/
inductive CPhase
  | hunt
  | charge
  | strike
  | brake
deriving DecidableEq

/-- The state of a `ChargerEnemy` (source `__init__`, lines 434-451):
current phase, position, `__speed`, the charge timer `__charge_state`
(a Python int starting at `0` and incremented by `__charge_speed = 2`),
the captured strike target `__charge_loc`, the locked braking direction
(the source stores the angle `__break_deg`; the unit vector is stored
here), the current canvas fill, and the `Enemy` base data `size`,
`color`.  The per-instance constants are `__break_acc = 1.5`,
`__strike_speed = 25`, `__hunt_speed = 2`, `__charge_rad = 150`,
`__charge_speed = 2`. -/
structure Charger where
  phase : CPhase
  pos : Pt
  speed : ℝ
  chargeState : ℕ
  chargeLoc : Option Pt
  brakeDir : Option Pt
  fill : String
  size : ℝ
  color : String

/-- The `__charge_col` palette `{0: red, 10: yellow, 20: green}`
(source line 450). -/
def chargeCol : ℕ → Option String
  | 0 => some "red"
  | 10 => some "yellow"
  | 20 => some "green"
  | _ => none

/-- `max(self.__charge_col.keys())` (source line 472). -/
def chargeColMax : ℕ :=
  [0, 10, 20].foldl max 0

/-- `ChargerEnemy.__hunt` (source lines 456-464): if the distance to the
player is `≤ __charge_rad` switch to the charge phase and return without
moving; otherwise move `__speed` along the heading toward the player. -/
noncomputable def huntStep (player : Pt) (c : Charger) : Charger :=
  if dist c.pos player ≤ 150 then { c with phase := .charge }
  else { c with pos := advance c.pos player c.speed }

/-- `ChargerEnemy.__charge` (source lines 466-476): when the timer is a
multiple of `10` recolour the canvas object from the palette (for the
timer values reachable from `0` in steps of `2` the palette lookup
always succeeds; on any other multiple of ten the source would raise
`KeyError`, modelled as leaving the fill unchanged); then advance the
timer by `__charge_speed = 2`, and once it exceeds the largest palette
key capture the player's position as the strike target, reset the timer,
switch to the strike phase and jump the speed to `__strike_speed`. -/
def chargeStep (player : Pt) (c : Charger) : Charger :=
  let fill' := if c.chargeState % 10 = 0 then (chargeCol c.chargeState).getD c.fill
    else c.fill
  let n := c.chargeState + 2
  if chargeColMax < n then
    { c with fill := fill', chargeState := 0, chargeLoc := some player,
             phase := .strike, speed := 25 }
  else
    { c with fill := fill', chargeState := n }

/-- `ChargerEnemy.__strike` (source lines 478-488): the deltas to the
captured target are computed first; the enemy moves `__speed` along the
`atan2` heading of those deltas, and if the pre-move distance `line` is
`< 25` it switches to the brake phase, locking the current heading in
`__break_deg`.  (`__strike` is only ever entered after `__charge` set
`__charge_loc`; with `__charge_loc = None` the source would raise, and
the state is returned unchanged here.) -/
noncomputable def strikeStep (c : Charger) : Charger :=
  match c.chargeLoc with
  | none => c
  | some tgt =>
      let line := dist c.pos tgt
      let d := dirTo c.pos tgt
      let pos' := advance c.pos tgt c.speed
      if line < 25 then { c with pos := pos', phase := .brake, brakeDir := some d }
      else { c with pos := pos' }

/-- `ChargerEnemy.__break` (source lines 490-497): decrement the speed
by `__break_acc = 1.5`, move the decremented speed along the locked
direction, and once the speed is `≤ __hunt_speed = 2`, restore the
canvas fill to `self.color`, reset the speed to `__hunt_speed` and
return to the hunt phase.  (`__break` is only ever entered after
`__strike` set `__break_deg`.) -/
noncomputable def brakeStep (c : Charger) : Charger :=
  match c.brakeDir with
  | none => c
  | some d =>
      let sp := c.speed - 1.5
      let pos' : Pt := ⟨c.pos.x + sp * d.x, c.pos.y + sp * d.y⟩
      if sp ≤ 2 then
        { c with pos := pos', speed := 2, fill := c.color, phase := .hunt }
      else
        { c with pos := pos', speed := sp }

/-- The `self.__state()` dispatch of `ChargerEnemy.update`
(source line 500). -/
noncomputable def chargerStep (player : Pt) (c : Charger) : Charger :=
  match c.phase with
  | .hunt => huntStep player c
  | .charge => chargeStep player c
  | .strike => strikeStep c
  | .brake => brakeStep c

/-- `ChargerEnemy.update` (source lines 499-502): run the current phase,
then the `hits_player` check at the new position. -/
noncomputable def chargerUpdate (player : Pt) (c : Charger) : Charger × Prop :=
  let c' := chargerStep player c
  (c', hitsPlayer c'.pos.x c'.pos.y c'.size player.x player.y)

/-- The inductive invariant of the `FencingEnemy` walk: in each movement
state the coordinate being moved has not yet crossed its threshold by
more than one step (`3`), and the frozen coordinate sits in the
overshoot band left by the previous phase. -/
def fenceInv (hx hy rad : ℤ) (s : FenceState) : Prop :=
  match s.dir with
  | .up =>
      hx + rad ≤ s.x ∧ s.x ≤ hx + rad + 3 ∧ hy - rad ≤ s.y ∧ s.y ≤ hy + rad + 3
  | .left =>
      hx - rad ≤ s.x ∧ s.x ≤ hx + rad + 3 ∧ hy - rad - 3 ≤ s.y ∧ s.y ≤ hy - rad - 1
  | .down =>
      hx - rad - 3 ≤ s.x ∧ s.x ≤ hx - rad - 1 ∧ hy - rad - 3 ≤ s.y ∧ s.y ≤ hy + rad
  | .right =>
      hx - rad - 3 ≤ s.x ∧ s.x ≤ hx + rad ∧ hy + rad + 1 ≤ s.y ∧ s.y ≤ hy + rad + 3

/-! ## Helper lemmas -/

theorem dist_self (p : Pt) : dist p p = 0 := by
  simp [dist]

theorem dirTo_of_ne (p q : Pt) (h : ¬(q.x - p.x = 0 ∧ q.y - p.y = 0)) :
    dirTo p q = ⟨(q.x - p.x) / dist p q, (q.y - p.y) / dist p q⟩ := by
  simp only [dirTo, if_neg h]

theorem dirTo_of_eq (p q : Pt) (h : q.x - p.x = 0 ∧ q.y - p.y = 0) :
    dirTo p q = ⟨1, 0⟩ := by
  simp only [dirTo, if_pos h]

theorem dist_sq_pos (p q : Pt) (h : ¬(q.x - p.x = 0 ∧ q.y - p.y = 0)) :
    0 < (q.x - p.x) ^ 2 + (q.y - p.y) ^ 2 := by
  rcases not_and_or.mp h with h1 | h1
  · exact add_pos_of_pos_of_nonneg (pow_two_pos_of_ne_zero h1) (sq_nonneg _)
  · exact add_pos_of_nonneg_of_pos (sq_nonneg _) (pow_two_pos_of_ne_zero h1)

/-- `turtle.forward speed` (and the `cos`/`sin` movement idiom) moves the
point exactly `|speed|` away from where it was. -/
theorem dist_advance (p q : Pt) (s : ℝ) : dist p (advance p q s) = |s| := by
  by_cases h : q.x - p.x = 0 ∧ q.y - p.y = 0
  · rw [advance, dirTo_of_eq p q h]
    show Real.sqrt ((p.x + s * 1 - p.x) ^ 2 + (p.y + s * 0 - p.y) ^ 2) = |s|
    rw [show (p.x + s * 1 - p.x) ^ 2 + (p.y + s * 0 - p.y) ^ 2 = s ^ 2 by ring,
      Real.sqrt_sq_eq_abs]
  · have hpos := dist_sq_pos p q h
    have hD : 0 < dist p q := Real.sqrt_pos.mpr hpos
    have hD2 : dist p q ^ 2 = (q.x - p.x) ^ 2 + (q.y - p.y) ^ 2 :=
      Real.sq_sqrt hpos.le
    rw [advance, dirTo_of_ne p q h]
    show Real.sqrt ((p.x + s * ((q.x - p.x) / dist p q) - p.x) ^ 2 +
      (p.y + s * ((q.y - p.y) / dist p q) - p.y) ^ 2) = |s|
    have key : (p.x + s * ((q.x - p.x) / dist p q) - p.x) ^ 2 +
        (p.y + s * ((q.y - p.y) / dist p q) - p.y) ^ 2 = s ^ 2 := by
      have hne : dist p q ≠ 0 := ne_of_gt hD
      have e1 : (p.x + s * ((q.x - p.x) / dist p q) - p.x) ^ 2 +
          (p.y + s * ((q.y - p.y) / dist p q) - p.y) ^ 2
          = s ^ 2 * (((q.x - p.x) ^ 2 + (q.y - p.y) ^ 2) / dist p q ^ 2) := by
        field_simp
        ring
      rw [e1, ← hD2, div_self (pow_ne_zero 2 hne), mul_one]
    rw [key, Real.sqrt_sq_eq_abs]

theorem chainSpawnCount_eq (q : ℕ) : chainSpawnCount q = q := by
  induction q with
  | zero => rfl
  | succ q ih => rw [chainSpawnCount, ih]; omega

theorem chargeColMax_eq : chargeColMax = 20 := by
  decide

theorem chargerStep_size_color (player : Pt) (c : Charger) :
    (chargerStep player c).size = c.size ∧ (chargerStep player c).color = c.color := by
  rcases c with ⟨ph, pos, sp, cs, cl, bd, fill, size, color⟩
  cases ph <;> cases cl <;> cases bd <;>
    simp only [chargerStep, huntStep, chargeStep, strikeStep, brakeStep] <;>
    first
      | (split_ifs <;> simp)
      | simp

theorem fenceStep_size_color (hx hy rad : ℤ) (s : FenceState) :
    (fenceStep hx hy rad s).size = s.size ∧ (fenceStep hx hy rad s).color = s.color := by
  rcases s with ⟨x, y, dir, size, color⟩
  cases dir <;> simp only [fenceStep] <;> split_ifs <;> simp

theorem fenceInv_spawn (hx hy rad : ℤ) (hrad : 0 ≤ rad) (size : ℚ) (color : String) :
    fenceInv hx hy rad (fenceSpawn hx hy rad size color) := by
  simp only [fenceInv, fenceSpawn]
  omega

theorem fenceInv_step (hx hy rad : ℤ) (hrad : 0 ≤ rad) (s : FenceState)
    (h : fenceInv hx hy rad s) : fenceInv hx hy rad (fenceStep hx hy rad s) := by
  cases hdir : s.dir <;>
    simp only [fenceInv, hdir] at h <;>
    simp only [fenceStep, hdir] <;>
    split_ifs <;>
    simp only [fenceInv] <;>
    omega

theorem fenceInv_iterate (hx hy rad : ℤ) (hrad : 0 ≤ rad) (size : ℚ) (color : String)
    (n : ℕ) :
    fenceInv hx hy rad ((fenceStep hx hy rad)^[n] (fenceSpawn hx hy rad size color)) := by
  induction n with
  | zero => exact fenceInv_spawn hx hy rad hrad size color
  | succ n ih =>
      rw [Function.iterate_succ_apply']
      exact fenceInv_step hx hy rad hrad _ ih

theorem fenceInv_bound (hx hy rad : ℤ) (hrad : 0 ≤ rad) (s : FenceState)
    (h : fenceInv hx hy rad s) :
    hx - (rad + 3) ≤ s.x ∧ s.x ≤ hx + (rad + 3) ∧
    hy - (rad + 3) ≤ s.y ∧ s.y ≤ hy + (rad + 3) := by
  cases hdir : s.dir <;> simp only [fenceInv, hdir] at h <;> omega

theorem fenceStep_dir (hx hy rad : ℤ) (s : FenceState) :
    (fenceStep hx hy rad s).dir = s.dir ∨ (fenceStep hx hy rad s).dir = fnext s.dir := by
  cases hdir : s.dir <;>
    simp only [fenceStep, fnext, hdir] <;>
    split_ifs <;> simp

theorem fence_progress_up (hx hy rad : ℤ) :
    ∀ (n : ℕ) (s : FenceState), (s.y - (hy - rad)).toNat ≤ n → s.dir = .up →
      ∃ k, 0 < k ∧ ((fenceStep hx hy rad)^[k] s).dir = .left := by
  intro n
  induction n with
  | zero =>
      intro s hle hdir
      have hc : s.y - 3 < hy - rad := by omega
      exact ⟨1, one_pos, by simp [fenceStep, hdir, hc]⟩
  | succ n ih =>
      intro s hle hdir
      by_cases hc : s.y - 3 < hy - rad
      · exact ⟨1, one_pos, by simp [fenceStep, hdir, hc]⟩
      · have hsd : (fenceStep hx hy rad s).dir = .up := by
          simp [fenceStep, hdir, hc]
        have hsy : (fenceStep hx hy rad s).y = s.y - 3 := by
          simp [fenceStep, hdir, hc]
        obtain ⟨k, hk, hkd⟩ := ih (fenceStep hx hy rad s) (by rw [hsy]; omega) hsd
        exact ⟨k + 1, by omega, by rwa [Function.iterate_succ_apply]⟩

theorem fence_progress_left (hx hy rad : ℤ) :
    ∀ (n : ℕ) (s : FenceState), (s.x - (hx - rad)).toNat ≤ n → s.dir = .left →
      ∃ k, 0 < k ∧ ((fenceStep hx hy rad)^[k] s).dir = .down := by
  intro n
  induction n with
  | zero =>
      intro s hle hdir
      have hc : s.x - 3 < hx - rad := by omega
      exact ⟨1, one_pos, by simp [fenceStep, hdir, hc]⟩
  | succ n ih =>
      intro s hle hdir
      by_cases hc : s.x - 3 < hx - rad
      · exact ⟨1, one_pos, by simp [fenceStep, hdir, hc]⟩
      · have hsd : (fenceStep hx hy rad s).dir = .left := by
          simp [fenceStep, hdir, hc]
        have hsx : (fenceStep hx hy rad s).x = s.x - 3 := by
          simp [fenceStep, hdir, hc]
        obtain ⟨k, hk, hkd⟩ := ih (fenceStep hx hy rad s) (by rw [hsx]; omega) hsd
        exact ⟨k + 1, by omega, by rwa [Function.iterate_succ_apply]⟩

theorem fence_progress_down (hx hy rad : ℤ) :
    ∀ (n : ℕ) (s : FenceState), ((hy + rad) - s.y).toNat ≤ n → s.dir = .down →
      ∃ k, 0 < k ∧ ((fenceStep hx hy rad)^[k] s).dir = .right := by
  intro n
  induction n with
  | zero =>
      intro s hle hdir
      have hc : hy + rad < s.y + 3 := by omega
      exact ⟨1, one_pos, by simp [fenceStep, hdir, hc]⟩
  | succ n ih =>
      intro s hle hdir
      by_cases hc : hy + rad < s.y + 3
      · exact ⟨1, one_pos, by simp [fenceStep, hdir, hc]⟩
      · have hsd : (fenceStep hx hy rad s).dir = .down := by
          simp [fenceStep, hdir, hc]
        have hsy : (fenceStep hx hy rad s).y = s.y + 3 := by
          simp [fenceStep, hdir, hc]
        obtain ⟨k, hk, hkd⟩ := ih (fenceStep hx hy rad s) (by rw [hsy]; omega) hsd
        exact ⟨k + 1, by omega, by rwa [Function.iterate_succ_apply]⟩

theorem fence_progress_right (hx hy rad : ℤ) :
    ∀ (n : ℕ) (s : FenceState), ((hx + rad) - s.x).toNat ≤ n → s.dir = .right →
      ∃ k, 0 < k ∧ ((fenceStep hx hy rad)^[k] s).dir = .up := by
  intro n
  induction n with
  | zero =>
      intro s hle hdir
      have hc : hx + rad < s.x + 3 := by omega
      exact ⟨1, one_pos, by simp [fenceStep, hdir, hc]⟩
  | succ n ih =>
      intro s hle hdir
      by_cases hc : hx + rad < s.x + 3
      · exact ⟨1, one_pos, by simp [fenceStep, hdir, hc]⟩
      · have hsd : (fenceStep hx hy rad s).dir = .right := by
          simp [fenceStep, hdir, hc]
        have hsx : (fenceStep hx hy rad s).x = s.x + 3 := by
          simp [fenceStep, hdir, hc]
        obtain ⟨k, hk, hkd⟩ := ih (fenceStep hx hy rad s) (by rw [hsx]; omega) hsd
        exact ⟨k + 1, by omega, by rwa [Function.iterate_succ_apply]⟩

/-- From any state, the `FencingEnemy` walk eventually hands over to the
cyclically next movement state. -/
theorem fence_progress (hx hy rad : ℤ) (s : FenceState) :
    ∃ k, 0 < k ∧ ((fenceStep hx hy rad)^[k] s).dir = fnext s.dir := by
  cases hdir : s.dir
  · simpa [fnext] using fence_progress_up hx hy rad _ s le_rfl hdir
  · simpa [fnext] using fence_progress_left hx hy rad _ s le_rfl hdir
  · simpa [fnext] using fence_progress_down hx hy rad _ s le_rfl hdir
  · simpa [fnext] using fence_progress_right hx hy rad _ s le_rfl hdir

theorem filter_map_sum_replicate (n : ℕ) (c : EnemyKind × ℕ × ℕ) (k : EnemyKind) :
    (((List.replicate n c).filter (fun x => x.1 = k)).map
      (fun x => chainSpawnCount x.2.2)).sum
      = if c.1 = k then n * chainSpawnCount c.2.2 else 0 := by
  induction n with
  | zero => simp
  | succ n ih =>
      rw [List.replicate_succ, List.filter_cons]
      by_cases hc : c.1 = k
      · simp [hc, ih]
        ring
      · simp [hc, ih]

theorem totalSpawned_high (level : ℕ) (hlevel : 4 ≤ level) (k : EnemyKind) :
    totalSpawned k level = highCount k level * baseQuota k := by
  have hnot : ¬ level < 4 := by omega
  cases k <;>
    simp [totalSpawned, spawnCalls, hnot, allKinds, List.filter_append,
      filter_map_sum_replicate, chainSpawnCount_eq, baseQuota, highCount]

theorem spawnCalls_delay (level : ℕ) (hlevel : 4 ≤ level) :
    ∀ c ∈ spawnCalls level, c.2.1 = baseDelay c.1 / (1 + level / 10) := by
  intro c hc
  have hnot : ¬ level < 4 := by omega
  rw [spawnCalls, if_neg hnot] at hc
  rcases List.mem_flatMap.mp hc with ⟨a, ha, hmem⟩
  have he := List.eq_of_mem_replicate hmem
  subst he
  rfl

/-! ## Claim theorems -/

/-- C1 (code_bug): the spec requires that once `game_over_win` or
`game_over_lose` has been called, no pending `__spawn_enemy` callback
may create and register a new enemy.  In the source the callback body
tests only `spawn_quota > 0`: fired after `game_over_lose` with a
positive quota it still registers a new enemy with the controller and
even re-arms the next timer. -/
theorem c1_spawn_fires_after_game_over :
    (gameOverLose ⟨false, 0⟩).stopped = true
  ∧ (spawnEnemyFire (gameOverLose ⟨false, 0⟩) 5).1.enemies =
      (gameOverLose ⟨false, 0⟩).enemies + 1
  ∧ (spawnEnemyFire (gameOverLose ⟨false, 0⟩) 5).2 = some 4 :=
  ⟨rfl, rfl, rfl⟩

/-- C2 (counterexample): at level 25 the total number of
`RandomWalkEnemy` instances eventually spawned is
`high_lvl count × chain quota = (3 + 1) * 5 = 20`,
not `base quota + level // 20 = 5 + 1 = 6` as the claim states. -/
theorem c2_counterexample :
    totalSpawned EnemyKind.randomWalk 25 = 20
  ∧ baseQuota EnemyKind.randomWalk + 25 / 20 = 6
  ∧ totalSpawned EnemyKind.randomWalk 25 ≠ baseQuota EnemyKind.randomWalk + 25 / 20 := by
  refine ⟨by decide, by decide, by decide⟩

/-- C2 (amended): for every level ≥ the number of kinds (4), all kinds
are introduced; the total number of enemies eventually spawned per kind
is `high_lvl(kind, level) * base-quota(kind)` where
`high_lvl = (3 or 4) + level // 20` chains are started and each chain
spawns the kind's base quota; and every chain is started with
inter-spawn delay `base-delay // (1 + level // 10)`. -/
theorem c2_amended (level : ℕ) (hlevel : 4 ≤ level) :
    (∀ k, totalSpawned k level = highCount k level * baseQuota k)
  ∧ (∀ k, 0 < totalSpawned k level)
  ∧ (∀ c ∈ spawnCalls level, c.2.1 = baseDelay c.1 / (1 + level / 10)) := by
  refine ⟨totalSpawned_high level hlevel, ?_, spawnCalls_delay level hlevel⟩
  intro k
  rw [totalSpawned_high level hlevel k]
  have h1 : 0 < highCount k level := by cases k <;> simp [highCount]
  have h2 : 0 < baseQuota k := by cases k <;> simp [baseQuota]
  exact Nat.mul_pos h1 h2

/-- C2 witness: the amended statement at level 25 for
`RandomWalkEnemy`: `(3 + 25 // 20) * 5 = 20` enemies in total, and the
chains are armed with delay `10000 // (1 + 25 // 10) = 10000 // 3`. -/
theorem c2_amended_witness :
    totalSpawned EnemyKind.randomWalk 25 =
      highCount EnemyKind.randomWalk 25 * baseQuota EnemyKind.randomWalk :=
  (c2_amended 25 (by norm_num)).1 EnemyKind.randomWalk

/-- C7 (confirmed): at level 1 the generator starts exactly one spawn
chain, for `RandomWalkEnemy` with quota 5, so exactly 5 random-walk
enemies and no enemy of any other kind are ever spawned; and every
self-re-arming chain creates exactly its quota of enemies, terminating
when the quota reaches 0. -/
theorem c7_level1_spawns :
    totalSpawned EnemyKind.randomWalk 1 = 5
  ∧ totalSpawned EnemyKind.chasing 1 = 0
  ∧ totalSpawned EnemyKind.fencing 1 = 0
  ∧ totalSpawned EnemyKind.charger 1 = 0
  ∧ (∀ q, chainSpawnCount q = q)
  ∧ chainSpawnCount 0 = 0 :=
  ⟨by decide, by decide, by decide, by decide, chainSpawnCount_eq, rfl⟩

/-- C3 (counterexample): `DemoEnemy.update` is `pass`; with the demo
enemy and the player both at `(0, 0)` (size 20) the `hits_player` test
holds at the post-update position, yet the update raises no
game-over-lose signal — so not every enemy variant's `update` concludes
with a `hits_player` check. -/
theorem c3_counterexample :
    hitsPlayer (demoUpdate ⟨0, 0, 20, "green"⟩).1.x (demoUpdate ⟨0, 0, 20, "green"⟩).1.y
      (demoUpdate ⟨0, 0, 20, "green"⟩).1.size 0 0
  ∧ ¬ (demoUpdate ⟨0, 0, 20, "green"⟩).2 :=
  ⟨by norm_num [demoUpdate, hitsPlayer], fun h => h⟩

/-- C3 (amended): for the four moving enemy variants (`RandomWalkEnemy`,
`ChasingEnemy`, `FencingEnemy`, `ChargerEnemy`), `update` ends with a
`hits_player` check at the post-move position and signals
game-over-lose exactly when it holds; `DemoEnemy.update`, however, is a
no-op that performs no check and never signals. -/
theorem c3_amended :
    (∀ (screenH px py : ℚ) (ax ay : Bool) (s : RWState),
        (rwUpdate screenH px py ax ay s).2 ↔
          hitsPlayer (rwUpdate screenH px py ax ay s).1.x
            (rwUpdate screenH px py ax ay s).1.y s.size px py)
  ∧ (∀ (player : Pt) (s : ChaseState),
        (chasingUpdate player s).2 ↔
          hitsPlayer (chasingUpdate player s).1.pos.x
            (chasingUpdate player s).1.pos.y s.size player.x player.y)
  ∧ (∀ (hx hy rad : ℤ) (px py : ℚ) (s : FenceState),
        (fenceUpdate hx hy rad px py s).2 ↔
          hitsPlayer ((fenceUpdate hx hy rad px py s).1.x : ℚ)
            ((fenceUpdate hx hy rad px py s).1.y : ℚ) s.size px py)
  ∧ (∀ (player : Pt) (c : Charger),
        (chargerUpdate player c).2 ↔
          hitsPlayer (chargerUpdate player c).1.pos.x
            (chargerUpdate player c).1.pos.y c.size player.x player.y)
  ∧ (∀ s : DemoState, demoUpdate s = (s, False)) := by
  refine ⟨fun screenH px py ax ay s => Iff.rfl,
          fun player s => Iff.rfl, ?_, ?_, fun s => rfl⟩
  · intro hx hy rad px py s
    have hsz := (fenceStep_size_color hx hy rad s).1
    show hitsPlayer _ _ (fenceStep hx hy rad s).size px py ↔ _
    rw [hsz]
    exact Iff.rfl
  · intro player c
    have hsz := (chargerStep_size_color player c).1
    show hitsPlayer _ _ (chargerStep player c).size _ _ ↔ _
    rw [hsz]
    exact Iff.rfl

/-- C8 (confirmed): for every enemy, `hits_player` holds iff the
player's position lies strictly inside the open axis-aligned box of
side `size` centred at the enemy's position; a player exactly on the
box boundary is not a hit. -/
theorem c8_hits_player_open_box {α : Type} [LinearOrderedField α]
    (ex ey esize px py : α) :
    (hitsPlayer ex ey esize px py ↔
      px ∈ Set.Ioo (ex - esize / 2) (ex + esize / 2) ∧
      py ∈ Set.Ioo (ey - esize / 2) (ey + esize / 2))
  ∧ ¬ hitsPlayer ex ey esize (ex - esize / 2) py
  ∧ ¬ hitsPlayer ex ey esize (ex + esize / 2) py
  ∧ ¬ hitsPlayer ex ey esize px (ey - esize / 2)
  ∧ ¬ hitsPlayer ex ey esize px (ey + esize / 2) := by
  refine ⟨by simp [hitsPlayer, Set.mem_Ioo], ?_, ?_, ?_, ?_⟩ <;>
    simp [hitsPlayer]

/-- C8 witness: a player exactly on the right edge of the box of an
enemy of size 20 at the origin is not hit. -/
theorem c8_witness : ¬ hitsPlayer (0 : ℚ) 0 20 (0 + 20 / 2) 0 :=
  (c8_hits_player_open_box (0 : ℚ) 0 20 3 0).2.2.1

/-- C9 (counterexample): `Home.size` has a public setter
(source lines 106-108), so a public operation of the program can change
a `Home`'s size after construction. -/
theorem c9_counterexample :
    (homeSizeSet ⟨0, 0, 20⟩ 21).size = 21
  ∧ (homeSizeSet ⟨0, 0, 20⟩ 21).size ≠ (⟨0, 0, 20⟩ : HomeT).size :=
  ⟨rfl, by decide⟩

/-- C9 (amended): `Home`'s position and size are not protected by the
interface: the public `size` setter does change `size` (to exactly the
value assigned), though it leaves the position untouched; the remaining
`Home` operation with simulation effect, `update`, changes nothing, and
`contains` is a pure query. -/
theorem c9_amended (h : HomeT) (v : ℚ) :
    (homeSizeSet h v).x = h.x
  ∧ (homeSizeSet h v).y = h.y
  ∧ (homeSizeSet h v).size = v
  ∧ homeUpdate h = h
  ∧ (∀ px py : ℚ, homeContains (homeUpdate h).x (homeUpdate h).y (homeUpdate h).size px py ↔
      homeContains h.x h.y h.size px py) :=
  ⟨rfl, rfl, rfl, rfl, fun _ _ => Iff.rfl⟩

/-- C4 (counterexample): with the player at `(900, 300)` inside a home
centred at `(900, 300)` (size 20) and an active waypoint at
`(900, 400)` (speed 5), `Player.update` signals the win **and still
moves the player** to `y = 305` in the same call: the home branch has
no `return`/`else`, so "no further movement that tick" is false. -/
theorem c4_counterexample :
    (playerUpdate 900 300 20 ⟨900, 400⟩ true ⟨900, 300⟩ 5).win
  ∧ (playerUpdate 900 300 20 ⟨900, 400⟩ true ⟨900, 300⟩ 5).pos.y = 305 := by
  constructor
  · show homeContains (900 : ℝ) 300 20 900 300
    exact ⟨⟨by norm_num, by norm_num⟩, ⟨by norm_num, by norm_num⟩⟩
  · have hd : dist ⟨900, 300⟩ ⟨900, 400⟩ = 100 := by
      show Real.sqrt (((900 : ℝ) - 900) ^ 2 + ((400 : ℝ) - 300) ^ 2) = 100
      rw [show ((900 : ℝ) - 900) ^ 2 + ((400 : ℝ) - 300) ^ 2 = 100 ^ 2 by norm_num]
      exact Real.sqrt_sq (by norm_num)
    have hne : ¬(((900 : ℝ) - 900 = 0) ∧ ((400 : ℝ) - 300 = 0)) :=
      fun h => absurd h.2 (by norm_num)
    show (advance ⟨900, 300⟩ ⟨900, 400⟩ 5).y = 305
    show (⟨900, 300⟩ : Pt).y + 5 * (dirTo ⟨900, 300⟩ ⟨900, 400⟩).y = 305
    rw [dirTo_of_ne ⟨900, 300⟩ ⟨900, 400⟩ hne]
    show (300 : ℝ) + 5 * (((400 : ℝ) - 300) / dist ⟨900, 300⟩ ⟨900, 400⟩) = 305
    rw [hd]
    norm_num

/-- C4 (amended): `Player.update` signals the win exactly when the home
contains the player's pre-update position, but the signal does not
suppress movement in the same call; independently of the home test, if
the waypoint is active the player advances by exactly `speed` along the
heading toward the waypoint and the waypoint is deactivated exactly when
the resulting distance to it is `< speed`; if the waypoint is inactive
the position is unchanged. -/
theorem c4_amended (hx hy hsize : ℝ) (wp : Pt) (wpActive : Bool) (p : Pt) (speed : ℝ) :
    ((playerUpdate hx hy hsize wp wpActive p speed).win ↔
      homeContains hx hy hsize p.x p.y)
  ∧ (wpActive = true →
      (playerUpdate hx hy hsize wp wpActive p speed).pos = advance p wp speed
      ∧ dist p (playerUpdate hx hy hsize wp wpActive p speed).pos = |speed|
      ∧ ((playerUpdate hx hy hsize wp wpActive p speed).wpActive = false ↔
          dist (advance p wp speed) wp < speed))
  ∧ (wpActive = false →
      (playerUpdate hx hy hsize wp wpActive p speed).pos = p
      ∧ (playerUpdate hx hy hsize wp wpActive p speed).wpActive = false) := by
  cases wpActive
  · exact ⟨Iff.rfl, fun h => by simp at h, fun _ => ⟨rfl, rfl⟩⟩
  · refine ⟨Iff.rfl, fun _ => ⟨rfl, dist_advance p wp speed, ?_⟩, fun h => by simp at h⟩
    show (if dist (advance p wp speed) wp < speed then false else true) = false ↔
      dist (advance p wp speed) wp < speed
    by_cases hlt : dist (advance p wp speed) wp < speed
    · simp [hlt]
    · simp [hlt]

/-- C4 witness: player at the origin, active waypoint at `(3, 4)`
(distance 5), speed 5: the update lands exactly on the waypoint and
deactivates it. -/
theorem c4_amended_witness :
    (playerUpdate 100 100 20 ⟨3, 4⟩ true ⟨0, 0⟩ 5).wpActive = false := by
  have h := ((c4_amended 100 100 20 ⟨3, 4⟩ true ⟨0, 0⟩ 5).2.1 rfl).2.2
  have hd : dist ⟨0, 0⟩ ⟨3, 4⟩ = 5 := by
    show Real.sqrt (((3 : ℝ) - 0) ^ 2 + ((4 : ℝ) - 0) ^ 2) = 5
    rw [show ((3 : ℝ) - 0) ^ 2 + ((4 : ℝ) - 0) ^ 2 = 5 ^ 2 by norm_num]
    exact Real.sqrt_sq (by norm_num)
  have hne : ¬(((3 : ℝ) - 0 = 0) ∧ ((4 : ℝ) - 0 = 0)) :=
    fun hc => absurd hc.1 (by norm_num)
  have hadv : advance ⟨0, 0⟩ ⟨3, 4⟩ 5 = ⟨3, 4⟩ := by
    show (⟨(0 : ℝ) + 5 * (dirTo ⟨0, 0⟩ ⟨3, 4⟩).x, (0 : ℝ) + 5 * (dirTo ⟨0, 0⟩ ⟨3, 4⟩).y⟩ : Pt)
      = ⟨3, 4⟩
    rw [dirTo_of_ne ⟨0, 0⟩ ⟨3, 4⟩ hne, hd]
    show (⟨(0 : ℝ) + 5 * (((3 : ℝ) - 0) / 5), (0 : ℝ) + 5 * (((4 : ℝ) - 0) / 5)⟩ : Pt)
      = ⟨3, 4⟩
    norm_num
  rw [hadv] at h
  rw [dist_self] at h
  exact h.mpr (by norm_num)

/-- C5 (confirmed): the `ChargerEnemy` state machine transitions at
exactly the stated thresholds: hunt→charge when the distance to the
player is `≤ 150`; charge→strike when the advanced charge timer exceeds
the highest palette threshold `20`, capturing the player's position and
jumping the speed to `25`; strike→brake when the distance to the
captured target is `< 25`; brake→hunt when the decelerated speed is
`≤ 2` (the hunt speed), resetting speed and canvas colour. -/
theorem c5_charger_transitions (player : Pt) (c : Charger) :
    (c.phase = CPhase.hunt →
        ((chargerStep player c).phase = CPhase.charge ↔ dist c.pos player ≤ 150))
  ∧ (c.phase = CPhase.charge →
        (((chargerStep player c).phase = CPhase.strike ↔ 20 < c.chargeState + 2)
        ∧ (20 < c.chargeState + 2 →
            (chargerStep player c).chargeLoc = some player ∧
            (chargerStep player c).speed = 25)))
  ∧ (∀ tgt : Pt, c.phase = CPhase.strike → c.chargeLoc = some tgt →
        ((chargerStep player c).phase = CPhase.brake ↔ dist c.pos tgt < 25))
  ∧ (∀ d : Pt, c.phase = CPhase.brake → c.brakeDir = some d →
        (((chargerStep player c).phase = CPhase.hunt ↔ c.speed - 1.5 ≤ 2)
        ∧ (c.speed - 1.5 ≤ 2 →
            (chargerStep player c).speed = 2 ∧ (chargerStep player c).fill = c.color))) := by
  refine ⟨?_, ?_, ?_, ?_⟩
  · intro hph
    simp only [chargerStep, hph, huntStep]
    by_cases hle : dist c.pos player ≤ 150
    · simp [hle]
    · simp [hle]
  · intro hph
    simp only [chargerStep, hph, chargeStep, chargeColMax_eq]
    by_cases hgt : 20 < c.chargeState + 2
    · simp [hgt]
    · simp [hgt]
  · intro tgt hph hloc
    simp only [chargerStep, hph, strikeStep, hloc]
    by_cases hlt : dist c.pos tgt < 25
    · simp [hlt]
    · simp [hlt]
  · intro d hph hdir
    simp only [chargerStep, hph, brakeStep, hdir]
    by_cases hle : c.speed - 1.5 ≤ 2
    · simp [hle]
    · simp [hle]

/-- C5 witness: a hunting charger at the origin with the player at
`(150, 0)` (distance exactly 150) switches to the charge phase. -/
theorem c5_witness :
    (chargerStep ⟨150, 0⟩
      ⟨CPhase.hunt, ⟨0, 0⟩, 2, 0, none, none, "navy", 18, "navy"⟩).phase
      = CPhase.charge := by
  have hd : dist (⟨0, 0⟩ : Pt) ⟨150, 0⟩ = 150 := by
    show Real.sqrt (((150 : ℝ) - 0) ^ 2 + ((0 : ℝ) - 0) ^ 2) = 150
    rw [show ((150 : ℝ) - 0) ^ 2 + ((0 : ℝ) - 0) ^ 2 = 150 ^ 2 by norm_num]
    exact Real.sqrt_sq (by norm_num)
  exact ((c5_charger_transitions ⟨150, 0⟩ _).1 rfl).mpr (le_of_eq hd)

/-- C6 (counterexample): a `FencingEnemy` with home `(100, 100)` and
patrol radius 15 starts at `(115, 115)`; after 11 `__move_up` steps of
3 its `y` is `82 < 100 - 15`: the enemy leaves the square
`home ± patrol_radius`. -/
theorem c6_counterexample :
    ((fenceStep 100 100 15)^[11] (fenceSpawn 100 100 15 15 "orange")).y < 100 - 15 := by
  decide

/-- C6 (amended): starting from its spawn location
`home + (patrol_radius, patrol_radius)` in the move-up state, every
reachable position of a `FencingEnemy` stays within
`home ± (patrol_radius + speed)` (speed 3) on both axes — it can
overshoot the `home ± patrol_radius` square by up to one step — and the
four states cycle in the fixed order
move-up→move-left→move-down→move-right→move-up forever: each step
either keeps the current state or advances it to its cyclic successor,
and from any state the successor is eventually reached. -/
theorem c6_amended (hx hy rad : ℤ) (size : ℚ) (color : String) (hrad : 0 ≤ rad) :
    (∀ n : ℕ,
        hx - (rad + 3) ≤ ((fenceStep hx hy rad)^[n] (fenceSpawn hx hy rad size color)).x
      ∧ ((fenceStep hx hy rad)^[n] (fenceSpawn hx hy rad size color)).x ≤ hx + (rad + 3)
      ∧ hy - (rad + 3) ≤ ((fenceStep hx hy rad)^[n] (fenceSpawn hx hy rad size color)).y
      ∧ ((fenceStep hx hy rad)^[n] (fenceSpawn hx hy rad size color)).y ≤ hy + (rad + 3))
  ∧ (∀ s : FenceState, (fenceStep hx hy rad s).dir = s.dir ∨
        (fenceStep hx hy rad s).dir = fnext s.dir)
  ∧ (∀ s : FenceState, ∃ k, 0 < k ∧ ((fenceStep hx hy rad)^[k] s).dir = fnext s.dir)
  ∧ (fenceSpawn hx hy rad size color).x = hx + rad
  ∧ (fenceSpawn hx hy rad size color).y = hy + rad
  ∧ (fenceSpawn hx hy rad size color).dir = FDir.up := by
  refine ⟨?_, fenceStep_dir hx hy rad, fence_progress hx hy rad, rfl, rfl, rfl⟩
  intro n
  exact fenceInv_bound hx hy rad hrad _ (fenceInv_iterate hx hy rad hrad size color n)

/-- C6 witness: the amended bound at home `(100, 100)`, radius 15,
after 11 steps: `y = 82` is still `≥ 100 - (15 + 3)`. -/
theorem c6_amended_witness :
    100 - (15 + 3) ≤ ((fenceStep 100 100 15)^[11] (fenceSpawn 100 100 15 15 "orange")).y :=
  ((c6_amended 100 100 15 15 "orange" (by norm_num)).1 11).2.2.1

/-- C10 (confirmed): for every enemy variant the public `size` and
`color` properties are exactly the construction arguments and are never
changed by `update`; in particular `ChargerEnemy`'s charge phase only
recolours the drawn canvas object (the `fill`), never the `color`
property, and the brake→hunt reset restores the fill to that unchanged
`color`. -/
theorem c10_size_color_immutable :
    (∀ (player : Pt) (c : Charger),
        (chargerStep player c).size = c.size ∧ (chargerStep player c).color = c.color)
  ∧ (∀ (screenH px py : ℚ) (ax ay : Bool) (s : RWState),
        (rwUpdate screenH px py ax ay s).1.size = s.size ∧
        (rwUpdate screenH px py ax ay s).1.color = s.color)
  ∧ (∀ (player : Pt) (s : ChaseState),
        (chasingUpdate player s).1.size = s.size ∧
        (chasingUpdate player s).1.color = s.color)
  ∧ (∀ (hx hy rad : ℤ) (px py : ℚ) (s : FenceState),
        (fenceUpdate hx hy rad px py s).1.size = s.size ∧
        (fenceUpdate hx hy rad px py s).1.color = s.color)
  ∧ (∀ s : DemoState,
        (demoUpdate s).1.size = s.size ∧ (demoUpdate s).1.color = s.color)
  ∧ (∀ (player : Pt) (c : Charger) (d : Pt), c.phase = CPhase.brake →
        c.brakeDir = some d → c.speed - 1.5 ≤ 2 →
        (chargerStep player c).fill = c.color) := by
  refine ⟨chargerStep_size_color, fun _ _ _ _ _ _ => ⟨rfl, rfl⟩,
    fun _ _ => ⟨rfl, rfl⟩, fun hx hy rad _ _ s => fenceStep_size_color hx hy rad s,
    fun _ => ⟨rfl, rfl⟩, ?_⟩
  intro player c d hph hdir hsp
  simp only [chargerStep, hph, brakeStep, hdir]
  simp [hsp]

/-- C10 witness: a braking charger (speed 2, so the decremented speed
`0.5 ≤ 2` triggers the reset) whose canvas fill was left green by the
charge phase has its fill restored to its `color` property "navy". -/
theorem c10_witness :
    (chargerStep ⟨0, 0⟩
      ⟨CPhase.brake, ⟨0, 0⟩, 2, 0, none, some ⟨1, 0⟩, "green", 18, "navy"⟩).fill
      = "navy" :=
  c10_size_color_immutable.2.2.2.2.2 ⟨0, 0⟩
    ⟨CPhase.brake, ⟨0, 0⟩, 2, 0, none, some ⟨1, 0⟩, "green", 18, "navy"⟩ ⟨1, 0⟩
    rfl rfl (by norm_num)

end TurtleAdventure
